import Mathlib

/-!
Verification of the retrieval / indexing / confidence core of the
paperless-ngx AI agent (Python sources: `qa_system.py`, `document_indexer.py`,
`vector_store.py`, `metadata_extractor.py`, `web_app.py`).

The Python code is shallowly embedded: document text is `List Char`
(Python `str`), distances are `ℚ` (exact values of the floats involved;
the one float round-trip `(score/100)*100` in the confidence estimator is
the identity on every integer score `0..100`, so it is modelled exactly by
the rational expression), dictionaries whose key may be absent are
`Option`-valued fields, and the external collaborators (vector store,
embedding provider, generation provider, document source) are function
parameters, as the spec treats them as abstract interfaces.  Python's
`list.sort` is a stable sort, so it is modelled by a stable sorting
function (`List.insertionSort`, which inserts earlier elements before
later equal-keyed ones, exactly as a stable sort must).
-/

/-- Chunk metadata as stored by `DocumentIndexer.index_document`
(`document_indexer.py` lines 105-112): every key is always present with a
string value (possibly empty), so the fields are plain `String`s. -/
structure Metadata where
  title : String
  correspondent : String
  document_type : String
  created : String
  tags : String
  deriving Repr, DecidableEq

/-- A formatted search result as produced by `VectorStore.search`
(`vector_store.py` lines 177-185).  `distance = none` models the
`'distance'` key being absent from the result dictionary, which is the
state read back by Python's `x.get('distance', default)`. -/
structure SearchResult where
  doc_id : Nat
  chunk_id : String
  text : String
  metadata : Metadata
  distance : Option ℚ
  deriving Repr, DecidableEq

/-! ### Multi-query merge stage (`QASystem.search_documents_multi`,
`qa_system.py` lines 262-279) -/

/-- The dedup loop of `search_documents_multi` with its `seen_docs` set
accumulated so far (`qa_system.py` lines 263-270). -/
def dedupAux (seen : List Nat) : List SearchResult → List SearchResult
  | [] => []
  | r :: rest =>
      if r.doc_id ∈ seen then dedupAux seen rest
      else r :: dedupAux (r.doc_id :: seen) rest

/-- Deduplication by `doc_id`, first occurrence wins
(`qa_system.py` lines 263-270, starting from an empty `seen_docs`). -/
def dedupByDocId (rs : List SearchResult) : List SearchResult :=
  dedupAux [] rs

/-- The sort key `lambda x: x.get('distance', 999)`
(`qa_system.py` line 273). -/
def sortKey (r : SearchResult) : ℚ :=
  r.distance.getD 999

/-- The comparison used by the `dedup_results.sort` call: ascending by
the distance key. -/
def leKey (a b : SearchResult) : Prop :=
  sortKey a ≤ sortKey b

instance : DecidableRel leKey :=
  fun a b => inferInstanceAs (Decidable (sortKey a ≤ sortKey b))

instance : IsTotal SearchResult leKey :=
  ⟨fun a b => le_total (sortKey a) (sortKey b)⟩

instance : IsTrans SearchResult leKey :=
  ⟨fun _ _ _ hab hbc => le_trans hab hbc⟩

/-- The merge stage of `search_documents_multi` (`qa_system.py` lines
262-279): the concatenation of all variants' results is deduplicated by
`doc_id`, sorted ascending by the distance key (stably, as Python's
`list.sort` is) and truncated to `n_results`. -/
def search_documents_multi_merge (all_results : List SearchResult)
    (n_results : Nat) : List SearchResult :=
  (List.insertionSort leKey (dedupByDocId all_results)).take n_results

/-! ### Dedup lemmas (claim C6) -/

theorem dedupAux_sublist (seen : List Nat) :
    ∀ rs : List SearchResult, (dedupAux seen rs).Sublist rs := by
  intro rs
  induction rs generalizing seen with
  | nil => simp [dedupAux]
  | cons r rest ih =>
      by_cases h : r.doc_id ∈ seen
      · simpa [dedupAux, h] using List.Sublist.cons r (ih seen)
      · simpa [dedupAux, h] using List.Sublist.cons₂ r (ih (r.doc_id :: seen))

theorem mem_dedupAux_not_seen {seen : List Nat} {rs : List SearchResult}
    {r : SearchResult} (h : r ∈ dedupAux seen rs) : r.doc_id ∉ seen := by
  induction rs generalizing seen with
  | nil => simp [dedupAux] at h
  | cons a rest ih =>
      by_cases ha : a.doc_id ∈ seen
      · exact ih (by simpa [dedupAux, ha] using h)
      · rw [dedupAux, if_neg ha] at h
        rcases List.mem_cons.mp h with h | h
        · exact h ▸ ha
        · have := ih h
          intro hc
          exact this (List.mem_cons_of_mem _ hc)

theorem dedupAux_pairwise (seen : List Nat) (rs : List SearchResult) :
    (dedupAux seen rs).Pairwise (fun a b => a.doc_id ≠ b.doc_id) := by
  induction rs generalizing seen with
  | nil => simp [dedupAux]
  | cons a rest ih =>
      by_cases ha : a.doc_id ∈ seen
      · simpa [dedupAux, ha] using ih seen
      · rw [dedupAux, if_neg ha]
        refine List.Pairwise.cons ?_ (ih (a.doc_id :: seen))
        intro b hb heq
        exact mem_dedupAux_not_seen hb (by simp [heq])

theorem dedupAux_find? (rs : List SearchResult) :
    ∀ (seen : List Nat) (d : Nat), d ∉ seen →
      (dedupAux seen rs).find? (fun r => r.doc_id == d) =
        rs.find? (fun r => r.doc_id == d) := by
  induction rs with
  | nil => intro seen d _; simp [dedupAux]
  | cons a rest ih =>
      intro seen d hd
      by_cases ha : a.doc_id ∈ seen
      · have hne : ¬ (a.doc_id == d) = true := by
          simp only [beq_iff_eq]
          intro h; exact hd (h ▸ ha)
        rw [dedupAux, if_pos ha, ih seen d hd, List.find?_cons]
        cases heq : (a.doc_id == d) with
        | true =>
            exfalso
            simp only [beq_iff_eq] at heq
            exact hd (heq ▸ ha)
        | false => rfl
      · rw [dedupAux, if_neg ha, List.find?_cons, List.find?_cons]
        cases heq : (a.doc_id == d) with
        | true => rfl
        | false =>
            refine ih _ d ?_
            intro hc
            rcases List.mem_cons.mp hc with h | h
            · have hne : a.doc_id ≠ d := by simpa using heq
              exact hne h.symm
            · exact hd h

/-- **C6.** Multi-query deduplication keeps exactly the first occurrence of
each `source_document_id` in concatenation order and drops every later
duplicate, regardless of the duplicates' distances: the deduplicated list
is an order-preserving sublist of the input, contains each `doc_id` at most
once, and for every `doc_id` its representative is precisely the first
element of the input with that id (`qa_system.py` lines 262-270). -/
theorem dedup_first_occurrence_wins (rs : List SearchResult) :
    (dedupByDocId rs).Sublist rs ∧
    (dedupByDocId rs).Pairwise (fun a b => a.doc_id ≠ b.doc_id) ∧
    ∀ d : Nat, (dedupByDocId rs).find? (fun r => r.doc_id == d) =
      rs.find? (fun r => r.doc_id == d) := by
  refine ⟨dedupAux_sublist [] rs, dedupAux_pairwise [] rs, ?_⟩
  intro d
  exact dedupAux_find? rs [] d (by simp)

/-! ### Sortedness of the merge stage (claim C2) -/

theorem search_documents_multi_merge_pairwise (all : List SearchResult)
    (n : Nat) :
    (search_documents_multi_merge all n).Pairwise leKey := by
  have hs : (List.insertionSort leKey (dedupByDocId all)).Pairwise leKey :=
    List.sorted_insertionSort leKey (dedupByDocId all)
  exact hs.sublist (List.take_sublist n _)

/-- **C2.** The sequence returned by the merge stage of multi-query
retrieval is sorted ascending by distance, where a result whose
`'distance'` key is missing gets the key value `999` (a very large value,
hence sorting last among ordinary distances), and the sequence length is
at most the requested `n_results` (`qa_system.py` lines 262-279). -/
theorem search_documents_multi_merge_sorted_bounded
    (all : List SearchResult) (n : Nat) :
    (search_documents_multi_merge all n).Pairwise leKey ∧
    (search_documents_multi_merge all n).length ≤ n ∧
    ∀ r ∈ search_documents_multi_merge all n,
      r.distance = none → sortKey r = 999 := by
  refine ⟨search_documents_multi_merge_pairwise all n, ?_, ?_⟩
  · exact (List.length_take _ _).le.trans (min_le_left _ _)
  · intro r _ hr
    simp [sortKey, hr]

/-- Witness for C2 at a concrete input: three results with distances
`.4`, `.1` and a missing distance come back ordered `[.1, .4, missing]`. -/
theorem search_documents_multi_merge_sorted_bounded_witness :
    ((search_documents_multi_merge
        [⟨1, "doc_1_chunk_0", "a", ⟨"", "", "", "", ""⟩, some (2/5)⟩,
         ⟨2, "doc_2_chunk_0", "b", ⟨"", "", "", "", ""⟩, some (1/10)⟩,
         ⟨3, "doc_3_chunk_0", "c", ⟨"", "", "", "", ""⟩, none⟩] 5).Pairwise
      leKey) ∧
    sortKey ⟨3, "doc_3_chunk_0", "c", ⟨"", "", "", "", ""⟩, none⟩ = 999 := by
  have h := search_documents_multi_merge_sorted_bounded
    [⟨1, "doc_1_chunk_0", "a", ⟨"", "", "", "", ""⟩, some (2/5)⟩,
     ⟨2, "doc_2_chunk_0", "b", ⟨"", "", "", "", ""⟩, some (1/10)⟩,
     ⟨3, "doc_3_chunk_0", "c", ⟨"", "", "", "", ""⟩, none⟩] 5
  refine ⟨h.1, ?_⟩
  refine h.2.2 _ ?_ rfl
  norm_num [search_documents_multi_merge, dedupByDocId, dedupAux,
    List.insertionSort, List.orderedInsert, leKey, sortKey]

/-! ### Chunker (`DocumentIndexer._chunk_text`, `document_indexer.py`
lines 37-72).  Text is `List Char`; the loop is modelled with explicit
fuel, `none` meaning the `while` loop did not finish within the fuel. -/

/-- Python's whitespace test used by `str.strip()`. -/
def isWS (c : Char) : Bool :=
  c.isWhitespace

/-- Python `s.strip()`: remove leading and trailing whitespace. -/
def pyStrip (s : List Char) : List Char :=
  ((s.dropWhile isWS).reverse.dropWhile isWS).reverse

/-- Python `s.rfind(c)`: index of the last occurrence of `c` in `s`, or
`-1` when `c` does not occur. -/
def pyRfind (s : List Char) (c : Char) : Int :=
  match s with
  | [] => -1
  | a :: rest =>
      let r := pyRfind rest c
      if 0 ≤ r then r + 1
      else if a = c then 0
      else -1

/-- Python slice `s[i:j]` (step 1), including CPython's treatment of
negative and out-of-range indices. -/
def pySlice (s : List Char) (i j : Int) : List Char :=
  let n : Int := s.length
  let i' : Int := if i < 0 then max (n + i) 0 else min i n
  let j' : Int := if j < 0 then max (n + j) 0 else min j n
  (s.take j'.toNat).drop i'.toNat

/-- One iteration of the chunking loop body (`document_indexer.py` lines
56-67): take the window `text[start:start+chunk_size]`; if the window does
not reach the end of the text and the last sentence terminator or newline
sits strictly past half the window (`split_point > chunk_size * 0.5`,
which for integers is `2 * split_point > chunk_size`), cut the chunk
there.  Returns the chunk (before `strip`) and the updated `end`. -/
def chunkIter (text : List Char) (chunk_size : Nat) (start : Int) :
    List Char × Int :=
  let end0 : Int := start + chunk_size
  let chunk0 := pySlice text start end0
  let split_point : Int := max (pyRfind chunk0 '.') (pyRfind chunk0 '\n')
  if end0 < (text.length : Int) ∧ (chunk_size : Int) < 2 * split_point then
    (chunk0.take (split_point + 1).toNat, start + split_point + 1)
  else
    (chunk0, end0)

/-- The `while start < len(text)` loop of `_chunk_text`
(`document_indexer.py` lines 55-71), with fuel. -/
def chunkLoop (text : List Char) (chunk_size overlap : Nat) :
    Nat → Int → Option (List (List Char))
  | 0, start =>
      if start < (text.length : Int) then none else some []
  | fuel + 1, start =>
      if start < (text.length : Int) then
        (chunkLoop text chunk_size overlap fuel
            ((chunkIter text chunk_size start).2 - overlap)).map
          (fun rest => pyStrip (chunkIter text chunk_size start).1 :: rest)
      else some []

/-- `DocumentIndexer._chunk_text` (`document_indexer.py` lines 37-72).
The shortcut `if not text or len(text) <= chunk_size: return [text]`
returns the raw, untrimmed input as the single chunk.  The loop gets fuel
`text.length + 1`, enough whenever every iteration advances `start`. -/
def chunk_text (text : List Char) (chunk_size overlap : Nat) :
    Option (List (List Char)) :=
  if text = [] ∨ text.length ≤ chunk_size then some [text]
  else chunkLoop text chunk_size overlap (text.length + 1) 0

/-- The chunking loop runs forever from `start`: no fuel is enough. -/
def chunkLoopDiverges (text : List Char) (chunk_size overlap : Nat)
    (start : Int) : Prop :=
  ∀ fuel, chunkLoop text chunk_size overlap fuel start = none

/-! ### Claim C4: termination of the chunker -/

/-- Input on which the chunking loop never terminates although
`overlap < chunk_size` (`chunk_size = 10`, `overlap = 9`): the window
`"abcdef.zzz"` is cut at the period (`split_point = 6`), giving
`end = 7` and the next `start = 7 - 9 = -2`; the `start` values then
cycle `0, -2, -1, 0, …` forever. -/
def badChunkText : List Char :=
  "abcdef.zzzzzzzz".data

theorem badChunkText_iter_0 : (chunkIter badChunkText 10 0).2 = 7 := by
  decide

theorem badChunkText_iter_m2 : (chunkIter badChunkText 10 (-2)).2 = 8 := by
  decide

theorem badChunkText_iter_m1 : (chunkIter badChunkText 10 (-1)).2 = 9 := by
  decide

theorem badChunkText_cycle (fuel : Nat) :
    chunkLoop badChunkText 10 9 fuel 0 = none ∧
    chunkLoop badChunkText 10 9 fuel (-2) = none ∧
    chunkLoop badChunkText 10 9 fuel (-1) = none := by
  induction fuel with
  | zero =>
      refine ⟨?_, ?_, ?_⟩ <;>
        simp only [chunkLoop] <;> rw [if_pos (by decide)]
  | succ n ih =>
      obtain ⟨h0, h2, h1⟩ := ih
      refine ⟨?_, ?_, ?_⟩
      · simp only [chunkLoop]
        rw [if_pos (by decide), badChunkText_iter_0]
        norm_num [h2]
      · simp only [chunkLoop]
        rw [if_pos (by decide), badChunkText_iter_m2]
        norm_num [h1]
      · simp only [chunkLoop]
        rw [if_pos (by decide), badChunkText_iter_m1]
        norm_num [h0]

/-- **C4 counterexample.** `overlap < chunk_size` does *not* make the
chunker terminate: with `chunk_size = 10`, `overlap = 9` and the text
`"abcdef.zzzzzzzz"`, the boundary adjustment derives a negative stride
(`end = start + 7`, next `start = end - 9`), the loop revisits
`start ∈ {0, -2, -1}` forever, and no fuel makes it finish. -/
theorem chunk_text_nontermination_counterexample :
    9 < 10 ∧ chunkLoopDiverges badChunkText 10 9 0 :=
  ⟨by norm_num, fun fuel => (badChunkText_cycle fuel).1⟩

theorem chunkIter_stride (text : List Char) (cs ov : Nat) (hcs : 1 ≤ cs)
    (hov : 2 * ov ≤ cs) (start : Int) :
    start + ov + 1 ≤ (chunkIter text cs start).2 := by
  simp only [chunkIter]
  split
  next h => omega
  next h => omega

theorem chunkLoop_isSome (text : List Char) (cs ov : Nat) (hcs : 1 ≤ cs)
    (hov : 2 * ov ≤ cs) :
    ∀ (fuel : Nat) (start : Int),
      (text.length : Int) - start ≤ fuel →
      (chunkLoop text cs ov fuel start).isSome := by
  intro fuel
  induction fuel with
  | zero =>
      intro start hb
      have h : ¬ start < (text.length : Int) := by omega
      simp [chunkLoop, h]
  | succ n ih =>
      intro start hb
      by_cases h : start < (text.length : Int)
      · have hstep := chunkIter_stride text cs ov hcs hov start
        have hb' : (text.length : Int) - ((chunkIter text cs start).2 - ov) ≤ n := by
          omega
        simp only [chunkLoop, if_pos h]
        simpa using ih _ hb'
      · simp [chunkLoop, h]

/-- **C4 (amended).** The chunker terminates for every input text whenever
`chunk_size ≥ 1` and `2 * overlap ≤ chunk_size` (then both the raw stride
`chunk_size − overlap` and every adjusted stride `split_point + 1 −
overlap`, with `2 * split_point > chunk_size`, are at least 1).  The
original precondition `overlap < chunk_size` is *not* sufficient, see
`chunk_text_nontermination_counterexample`. -/
theorem chunk_text_terminates (text : List Char) (cs ov : Nat)
    (hcs : 1 ≤ cs) (hov : 2 * ov ≤ cs) :
    (chunk_text text cs ov).isSome := by
  unfold chunk_text
  split
  · simp
  · exact chunkLoop_isSome text cs ov hcs hov _ 0 (by push_cast; omega)

/-- Witness for C4 (amended) at the indexer's actual parameters
`chunk_size = 1500`, `overlap = 200` on a concrete text. -/
theorem chunk_text_terminates_witness :
    1 ≤ 1500 ∧ 2 * 200 ≤ 1500 ∧
    (chunk_text "ab.cd".data 1500 200).isSome :=
  ⟨by norm_num, by norm_num,
    chunk_text_terminates _ 1500 200 (by norm_num) (by norm_num)⟩

/-! ### Claim C3: shape of the chunks -/

theorem dropWhile_head_false (p : Char → Bool) :
    ∀ (l : List Char) (c : Char), (l.dropWhile p).head? = some c →
      p c = false := by
  intro l
  induction l with
  | nil => intro c h; simp at h
  | cons a rest ih =>
      intro c h
      rw [List.dropWhile_cons] at h
      by_cases ha : p a = true
      · exact ih c (by simpa [ha] using h)
      · rw [if_neg ha] at h
        have : a = c := by simpa using h
        simpa [this] using ha

theorem dropWhile_eq_self_of_head (p : Char → Bool) (l : List Char)
    (h : ∀ c, l.head? = some c → p c = false) : l.dropWhile p = l := by
  cases l with
  | nil => rfl
  | cons a rest =>
      rw [List.dropWhile_cons, if_neg]
      simp [h a rfl]

theorem getLast?_dropWhile (p : Char → Bool) :
    ∀ l : List Char, l.dropWhile p ≠ [] →
      (l.dropWhile p).getLast? = l.getLast? := by
  intro l
  induction l with
  | nil => intro h; simp [List.dropWhile] at h
  | cons a rest ih =>
      intro h
      rw [List.dropWhile_cons] at h ⊢
      by_cases ha : p a = true
      · rw [if_pos ha] at h ⊢
        have hrest : rest ≠ [] := by
          intro he
          exact h (by simp [he, List.dropWhile])
        obtain ⟨b, rest', rfl⟩ := List.exists_cons_of_ne_nil hrest
        rw [List.getLast?_cons_cons]
        exact ih h
      · rw [if_neg ha]

theorem head?_pyStrip (s : List Char) (c : Char)
    (h : (pyStrip s).head? = some c) : isWS c = false := by
  unfold pyStrip at h
  rw [List.head?_reverse] at h
  have hne : ((s.dropWhile isWS).reverse.dropWhile isWS) ≠ [] := by
    intro he
    rw [he] at h
    simp at h
  rw [getLast?_dropWhile isWS _ hne, List.getLast?_reverse] at h
  exact dropWhile_head_false isWS _ c h

theorem getLast?_pyStrip (s : List Char) (c : Char)
    (h : (pyStrip s).getLast? = some c) : isWS c = false := by
  unfold pyStrip at h
  rw [List.getLast?_reverse] at h
  exact dropWhile_head_false isWS _ c h

/-- `str.strip()` is idempotent: a stripped chunk has no leading or
trailing whitespace left. -/
theorem pyStrip_idem (s : List Char) : pyStrip (pyStrip s) = pyStrip s := by
  have h1 : (pyStrip s).dropWhile isWS = pyStrip s :=
    dropWhile_eq_self_of_head isWS _ (fun c hc => head?_pyStrip s c hc)
  have h2 : (pyStrip s).reverse.dropWhile isWS = (pyStrip s).reverse := by
    refine dropWhile_eq_self_of_head isWS _ (fun c hc => ?_)
    rw [List.head?_reverse] at hc
    exact getLast?_pyStrip s c hc
  show (((pyStrip s).dropWhile isWS).reverse.dropWhile isWS).reverse = pyStrip s
  rw [h1, h2, List.reverse_reverse]

theorem chunkLoop_mem_strip (text : List Char) (cs ov : Nat) :
    ∀ (fuel : Nat) (start : Int) (r : List (List Char)),
      chunkLoop text cs ov fuel start = some r →
      ∀ c ∈ r, ∃ s, c = pyStrip s := by
  intro fuel
  induction fuel with
  | zero =>
      intro start r h c hc
      by_cases hs : start < (text.length : Int)
      · simp [chunkLoop, hs] at h
      · simp [chunkLoop, hs] at h
        subst h
        simp at hc
  | succ n ih =>
      intro start r h c hc
      by_cases hs : start < (text.length : Int)
      · simp only [chunkLoop, if_pos hs] at h
        obtain ⟨rest, hrest, hr⟩ := Option.map_eq_some'.mp h
        subst hr
        rcases List.mem_cons.mp hc with h | h
        · exact ⟨_, h⟩
        · exact ih _ rest hrest c h
      · simp [chunkLoop, hs] at h
        subst h
        simp at hc

/-- **C3 (amended).** When `len(text) ≤ chunk_size` (or the text is empty)
the chunker returns exactly one chunk equal to the *raw, untrimmed* input
(`document_indexer.py` lines 49-50 return `[text]` without stripping);
in the multi-window path every produced chunk equals its own
whitespace-strip — so it carries no leading or trailing whitespace —
but it may be *empty* when a window contains only whitespace
(see `chunk_text_counterexample`). -/
theorem chunk_text_shape (text : List Char) (cs ov : Nat)
    (r : List (List Char)) (h : chunk_text text cs ov = some r) :
    ((text = [] ∨ text.length ≤ cs) → r = [text]) ∧
    (cs < text.length → text ≠ [] → ∀ c ∈ r, pyStrip c = c) := by
  constructor
  · intro hc
    unfold chunk_text at h
    rw [if_pos hc] at h
    exact (Option.some.inj h).symm
  · intro h1 h2 c hc
    unfold chunk_text at h
    rw [if_neg (by push_neg; exact ⟨h2, by omega⟩)] at h
    obtain ⟨s, rfl⟩ := chunkLoop_mem_strip text cs ov _ 0 r h c hc
    exact pyStrip_idem s

/-- **C3 counterexample.** The input `" a "` fits in one window, and the
chunker returns the raw input `[" a "]`: the single chunk has leading and
trailing whitespace and differs from the trimmed input `"a"`.  The input
`"ab  cd"` with `chunk_size = 2`, `overlap = 0` produces the chunk list
`["ab", "", "cd"]`, which contains an *empty* chunk (the all-whitespace
middle window), refuting both the trimming and the non-emptiness parts of
the claim. -/
theorem chunk_text_counterexample :
    chunk_text " a ".data 1000 200 = some [" a ".data] ∧
    pyStrip " a ".data ≠ " a ".data ∧
    chunk_text "ab  cd".data 2 0 = some ["ab".data, [], "cd".data] ∧
    ([] : List Char) ∈ ["ab".data, [], "cd".data] := by
  exact ⟨by decide, by decide, by decide, by decide⟩

/-- Witness for C3 (amended): the theorem applied to the concrete run
`chunk_text "ab  cd" 2 0 = some ["ab", "", "cd"]` yields that the chunk
`"cd"` is strip-fixed, and to `" a "` in one window that the raw input
comes back. -/
theorem chunk_text_shape_witness :
    pyStrip "cd".data = "cd".data ∧
    chunk_text " a ".data 1000 200 = some [" a ".data] := by
  constructor
  · exact (chunk_text_shape "ab  cd".data 2 0 ["ab".data, [], "cd".data]
      (by decide)).2 (by decide) (by decide) "cd".data (by decide)
  · have h := (chunk_text_shape " a ".data 1000 200 [" a ".data]
      (by decide)).1 (by decide)
    decide

/-! ### Confidence estimation (`QASystem._estimate_confidence`,
`qa_system.py` lines 416-501) -/

/-- Python's `str.lower`, restricted to the characters that occur in the
answers and negative phrases involved here (ASCII letters plus German
umlauts; `ß` is already lowercase and unchanged by `lower`). -/
def pyLowerChar (c : Char) : Char :=
  if c = 'Ä' then 'ä'
  else if c = 'Ö' then 'ö'
  else if c = 'Ü' then 'ü'
  else c.toLower

/-- Python's substring test `needle in hay`. -/
def pyContains (hay needle : List Char) : Bool :=
  (List.range (hay.length + 1)).any (fun i => needle.isPrefixOf (hay.drop i))

/-- The fixed negative-indicator phrases (`qa_system.py` lines 471-480). -/
def negative_phrases : List String :=
  ["keine antwort", "nicht beantworten", "keine information",
   "nicht gefunden", "konnte nicht", "keine relevanten dokumente",
   "ich weiß nicht", "unklar"]

/-- `QASystem._estimate_confidence` (`qa_system.py` lines 416-501),
translated clause by clause.  `doc.get('distance', 1.0)` is
`distance.getD 1`; the float round-trip `confidence_percent =
(score / max_score) * 100` is kept as the rational expression
`((score : ℚ) / 100) * 100`, which coincides with the float computation
on every integer score `0..100`. -/
def estimate_confidence (relevant_docs : List SearchResult)
    (answer : String) : String :=
  if relevant_docs = [] then "low"
  else
    let top_distances := (relevant_docs.take 3).map
      (fun doc => doc.distance.getD 1)
    let avg_distance : ℚ := top_distances.sum / (top_distances.length : ℚ)
    let s1 : Nat :=
      if avg_distance < 3/10 then 40
      else if avg_distance < 1/2 then 30
      else if avg_distance < 7/10 then 15
      else 5
    let best_distance : ℚ :=
      ((relevant_docs.head?).map (fun doc => doc.distance.getD 1)).getD 1
    let s2 : Nat :=
      if best_distance < 1/5 then 30
      else if best_distance < 2/5 then 20
      else if best_distance < 3/5 then 10
      else 3
    let s3 : Nat :=
      if 3 ≤ relevant_docs.length then 15
      else if 2 ≤ relevant_docs.length then 10
      else 5
    let answer_lower := answer.data.map pyLowerChar
    let has_negative :=
      negative_phrases.any (fun p => pyContains answer_lower p.data)
    let s4 : Nat :=
      if has_negative then 0
      else if 100 < answer.data.length then 15
      else if 50 < answer.data.length then 10
      else 5
    let score := s1 + s2 + s3 + s4
    let confidence_percent : ℚ := ((score : ℚ) / 100) * 100
    if 70 ≤ confidence_percent then "high"
    else if 45 ≤ confidence_percent then "medium"
    else "low"

/-- Spec-side factor 1 (`spec §4.5`): top-3 average distance, up to 40
points (`<0.3→40, <0.5→30, <0.7→15, else→5`). -/
def spec_factor_avg (results : List SearchResult) : Nat :=
  let ds := (results.take 3).map (fun doc => doc.distance.getD 1)
  let avg : ℚ := ds.sum / (ds.length : ℚ)
  if avg < 3/10 then 40
  else if avg < 1/2 then 30
  else if avg < 7/10 then 15
  else 5

/-- Spec-side factor 2: best single distance, up to 30 points
(`<0.2→30, <0.4→20, <0.6→10, else→3`). -/
def spec_factor_best (results : List SearchResult) : Nat :=
  let best : ℚ := ((results.head?).map (fun doc => doc.distance.getD 1)).getD 1
  if best < 1/5 then 30
  else if best < 2/5 then 20
  else if best < 3/5 then 10
  else 3

/-- Spec-side factor 3: result count, up to 15 points
(`≥3→15, ==2→10, else→5`). -/
def spec_factor_count (results : List SearchResult) : Nat :=
  if 3 ≤ results.length then 15
  else if 2 ≤ results.length then 10
  else 5

/-- Spec-side factor 4: answer-text heuristic, up to 15 points: 0 when the
lowercased answer contains a negative phrase, else by answer length
(`>100→15, >50→10, else→5`). -/
def spec_factor_answer (answer : String) : Nat :=
  if negative_phrases.any
      (fun p => pyContains (answer.data.map pyLowerChar) p.data) then 0
  else if 100 < answer.data.length then 15
  else if 50 < answer.data.length then 10
  else 5

/-- The confidence mapping exactly as the claim states it: empty results
give `low`, otherwise the four factor scores are summed and the *integer*
total is thresholded (`≥ 70 → high`, `≥ 45 → medium`, else `low`). -/
def spec_confidence (results : List SearchResult) (answer : String) :
    String :=
  if results = [] then "low"
  else
    let score := spec_factor_avg results + spec_factor_best results +
      spec_factor_count results + spec_factor_answer answer
    if 70 ≤ score then "high"
    else if 45 ≤ score then "medium"
    else "low"

theorem conf_threshold (s : Nat) :
    (if (70 : ℚ) ≤ ((s : ℚ) / 100) * 100 then "high"
     else if (45 : ℚ) ≤ ((s : ℚ) / 100) * 100 then "medium"
     else "low") =
    (if 70 ≤ s then "high" else if 45 ≤ s then "medium" else "low") := by
  have key : ((s : ℚ) / 100) * 100 = (s : ℚ) :=
    div_mul_cancel₀ _ (by norm_num)
  rw [key]
  have h70 : ((70 : ℚ) ≤ (s : ℚ)) ↔ 70 ≤ s := by exact_mod_cast Iff.rfl
  have h45 : ((45 : ℚ) ≤ (s : ℚ)) ↔ 45 ≤ s := by exact_mod_cast Iff.rfl
  simp only [h70, h45]

/-- The three-result scenario of the claim: best distance `.1`, top-3
average `(.1+.2+.3)/3 = .2`, three results. -/
def exampleDocs : List SearchResult :=
  [⟨1, "doc_1_chunk_0", "a", ⟨"", "", "", "", ""⟩, some (1/10)⟩,
   ⟨2, "doc_2_chunk_0", "b", ⟨"", "", "", "", ""⟩, some (1/5)⟩,
   ⟨3, "doc_3_chunk_0", "c", ⟨"", "", "", "", ""⟩, some (3/10)⟩]

/-- A 150-character answer containing no negative phrase. -/
def exampleAnswer : String :=
  String.mk (List.replicate 150 'x')

set_option maxRecDepth 8000 in
/-- **C5.** Confidence estimation returns `low` on an empty result list;
on any input it equals the spec-side sum-of-four-factors mapping with the
integer total thresholded at `≥ 70 → high`, `≥ 45 → medium`, else `low`
(the code's float detour `(score/100)*100` is the identity); and the
claim's concrete scenario (best `.1`, top-3 average `.2`, 3 results,
150-character negative-free answer) scores `40+30+15+15 = 100` and yields
`high` (`qa_system.py` lines 416-501). -/
theorem estimate_confidence_spec :
    (∀ answer, estimate_confidence [] answer = "low") ∧
    (∀ docs answer,
      estimate_confidence docs answer = spec_confidence docs answer) ∧
    estimate_confidence exampleDocs exampleAnswer = "high" := by
  refine ⟨fun answer => rfl, ?_, ?_⟩
  · intro docs answer
    by_cases h : docs = []
    · simp [estimate_confidence, spec_confidence, h]
    · simp only [estimate_confidence, spec_confidence, spec_factor_avg,
        spec_factor_best, spec_factor_count, spec_factor_answer, if_neg h]
      exact conf_threshold _
  · have hmap : exampleAnswer.data.map pyLowerChar =
        List.replicate 150 'x' := by decide
    have hneg : (negative_phrases.any
        (fun p => pyContains (List.replicate 150 'x') p.data))
        = false := by decide
    have hlen : exampleAnswer.data.length = 150 := by decide
    simp only [estimate_confidence]
    rw [if_neg (by simp [exampleDocs] : ¬ (exampleDocs = [])), hmap, hneg,
      hlen]
    norm_num [exampleDocs]

/-! ### Answer assembly (`QASystem.answer_question`, `qa_system.py`
lines 286-380) -/

/-- A source reference as collected in `answer_question`
(`qa_system.py` lines 340-346). -/
structure SourceRef where
  doc_id : Nat
  title : String
  correspondent : String
  document_type : String
  relevance_score : Option ℚ
  deriving Repr, DecidableEq

/-- One entry of the `sources` list (`qa_system.py` lines 340-346).  The
relevance expression is Python
`1 - (doc.get('distance', 0) / 2) if doc.get('distance') else None`:
the guard is the *truthiness* of the distance, so both a missing distance
and a distance of exactly `0.0` produce `None`.  The metadata keys are
always present in indexed chunks, so `metadata.get(k, default)` reads the
stored field. -/
def mkSource (doc : SearchResult) : SourceRef :=
  { doc_id := doc.doc_id
    title := doc.metadata.title
    correspondent := doc.metadata.correspondent
    document_type := doc.metadata.document_type
    relevance_score :=
      match doc.distance with
      | some d => if d ≠ 0 then some (1 - d / 2) else none
      | none => none }

/-- The structured answer object returned by `answer_question`. -/
structure Answer where
  answer : String
  sources : List SourceRef
  confidence : String
  deriving Repr, DecidableEq

/-- The could-not-find message (`qa_system.py` line 318). -/
def could_not_find_message : String :=
  "Ich konnte keine relevanten Dokumente finden, um diese Frage zu beantworten."

/-- The generation-failure fallback message (`qa_system.py` line 359). -/
def no_generation_message : String :=
  "Entschuldigung, ich konnte keine Antwort generieren."

/-- Python `answer.strip()` on a `String`. -/
def pyStripStr (s : String) : String :=
  String.mk (pyStrip s.data)

/-- `QASystem.answer_question` (`qa_system.py` lines 286-380) with the
collaborators' outcomes as inputs: `relevant_docs` is the retrieved
document list (after the `[:n_context_docs]` truncation) and `gen` the
generation provider's response to the RAG prompt (`none` models Python
`None`; the empty string is likewise falsy in `if not answer:`). -/
def answer_question (relevant_docs : List SearchResult)
    (gen : Option String) (include_sources : Bool) : Answer :=
  if relevant_docs = [] then
    ⟨could_not_find_message, [], "low"⟩
  else
    let sources := if include_sources then relevant_docs.map mkSource else []
    match gen with
    | none => ⟨no_generation_message, sources, "low"⟩
    | some a =>
        if a = "" then ⟨no_generation_message, sources, "low"⟩
        else ⟨pyStripStr a, sources, estimate_confidence relevant_docs a⟩

/-- **C8 counterexample.** A result whose distance is *available* and
equal to `0` (a perfect match) gets `relevance_score = None`, because
Python's `if doc.get('distance')` treats the float `0.0` as falsy; the
claim "relevance_score may be undefined only when the distance is
unavailable" fails at this input. -/
theorem relevance_score_counterexample :
    (mkSource ⟨7, "doc_7_chunk_0", "t", ⟨"", "", "", "", ""⟩,
      some 0⟩).relevance_score = none ∧
    (⟨7, "doc_7_chunk_0", "t", ⟨"", "", "", "", ""⟩, some 0⟩ :
      SearchResult).distance ≠ none := by
  constructor
  · simp [mkSource]
  · simp

/-- **C8 (amended).** Every source listed by `answer_question` is built by
`mkSource`; whenever the underlying result has a distance available *and
nonzero*, its relevance score equals `1 − distance/2`; and the relevance
score is undefined exactly when the distance is unavailable *or equal to
zero* (Python truthiness of `0.0`; `qa_system.py` lines 340-346). -/
theorem relevance_score_spec :
    (∀ docs gen,
      (answer_question docs gen true).sources = docs.map mkSource) ∧
    (∀ (r : SearchResult) (d : ℚ), r.distance = some d → d ≠ 0 →
      (mkSource r).relevance_score = some (1 - d / 2)) ∧
    (∀ r : SearchResult, (mkSource r).relevance_score = none ↔
      r.distance = none ∨ r.distance = some 0) := by
  refine ⟨?_, ?_, ?_⟩
  · intro docs gen
    by_cases h : docs = []
    · simp [answer_question, h]
    · rcases gen with - | a
      · simp [answer_question, h]
      · by_cases ha : a = "" <;> simp [answer_question, h, ha]
  · intro r d hd hne
    simp [mkSource, hd, hne]
  · intro r
    cases hd : r.distance with
    | none => simp [mkSource, hd]
    | some d => by_cases h : d = 0 <;> simp [mkSource, hd, h]

/-- Witness for C8 (amended): a result with distance `.5` gets relevance
score `1 − .5/2 = .75`. -/
theorem relevance_score_spec_witness :
    (mkSource ⟨1, "doc_1_chunk_0", "t", ⟨"", "", "", "", ""⟩,
      some (1/2)⟩).relevance_score = some (3/4) := by
  have h := relevance_score_spec.2.1
    ⟨1, "doc_1_chunk_0", "t", ⟨"", "", "", "", ""⟩, some (1/2)⟩
    (1/2) rfl (by norm_num)
  rw [h]
  norm_num

theorem high_medium_low_range (c1 c2 : Prop) [Decidable c1]
    [Decidable c2] :
    (if c1 then "high" else if c2 then "medium" else "low") = "low" ∨
    (if c1 then "high" else if c2 then "medium" else "low") = "medium" ∨
    (if c1 then "high" else if c2 then "medium" else "low") = "high" := by
  split_ifs <;> simp

theorem estimate_confidence_range (docs : List SearchResult)
    (answer : String) :
    estimate_confidence docs answer = "low" ∨
    estimate_confidence docs answer = "medium" ∨
    estimate_confidence docs answer = "high" := by
  by_cases h : docs = []
  · simp [estimate_confidence, h]
  · simp only [estimate_confidence, if_neg h]
    exact high_medium_low_range _ _

/-- **C9.** `answer_question` always returns a structured answer object
(the embedding is a total function into the `Answer` record, mirroring
the Python `try/except` that converts any exception into a structured
dictionary, `qa_system.py` lines 374-380): empty retrieval yields the
explicit could-not-find message with `low` confidence and no sources;
empty or failed generation yields the fixed fallback message with `low`
confidence together with the already-collected sources; and the
confidence field is always one of `low`, `medium`, `high`
(`qa_system.py` lines 316-321 and 355-380). -/
theorem answer_question_structured :
    (∀ gen inc, answer_question [] gen inc =
      ⟨could_not_find_message, [], "low"⟩) ∧
    (∀ docs inc, docs ≠ [] →
      answer_question docs none inc =
        ⟨no_generation_message,
          if inc then docs.map mkSource else [], "low"⟩ ∧
      answer_question docs (some "") inc =
        ⟨no_generation_message,
          if inc then docs.map mkSource else [], "low"⟩) ∧
    (∀ docs gen inc, (answer_question docs gen inc).confidence = "low" ∨
      (answer_question docs gen inc).confidence = "medium" ∨
      (answer_question docs gen inc).confidence = "high") := by
  refine ⟨?_, ?_, ?_⟩
  · intro gen inc
    simp [answer_question]
  · intro docs inc h
    constructor <;> simp [answer_question, h]
  · intro docs gen inc
    by_cases h : docs = []
    · simp [answer_question, h]
    · rcases gen with - | a
      · simp [answer_question, h]
      · by_cases ha : a = ""
        · simp [answer_question, h, ha]
        · simpa [answer_question, h, ha] using
            estimate_confidence_range docs a

/-- Witness for C9 at concrete inputs: failed generation on a non-empty
retrieved list returns the fallback message with the collected sources,
and empty retrieval the could-not-find message. -/
theorem answer_question_structured_witness :
    answer_question exampleDocs none true =
      ⟨no_generation_message, exampleDocs.map mkSource, "low"⟩ ∧
    answer_question [] (some "ok") true =
      ⟨could_not_find_message, [], "low"⟩ := by
  constructor
  · have h := (answer_question_structured.2.1 exampleDocs true
      (by simp [exampleDocs])).1
    simpa using h
  · exact answer_question_structured.1 (some "ok") true

/-! ### Indexer (`DocumentIndexer`, `document_indexer.py`) and the vector
store's id scheme (`vector_store.py`) -/

/-- A document as returned by the document source
(`paperless_client.get_document`). -/
structure PaperlessDoc where
  content : List Char
  title : String
  correspondent_name : String
  document_type_name : String
  created : String
  tag_names : List String
  archive_serial_number : String

/-- The indexer's collaborators, abstracted as deterministic functions:
the document source, the embedding provider (`none` = failure, as an
empty embedding is falsy in Python), and whether the store accepts a
given add (`vector_store.add_document` returns `False` on an internal
error). -/
structure IndexEnv where
  getDoc : Nat → Option PaperlessDoc
  embed : List Char → Option (List ℚ)
  addOk : String → Bool

/-- The ChromaDB id used for an *integer* document id: `f"doc_{doc_id}"`
(`vector_store.py` lines 205-206, the un-chunked primary key). -/
def plainKey (doc_id : Nat) : String :=
  "doc_" ++ toString doc_id

/-- The ChromaDB id under which chunk `k` of document `doc_id` is stored:
the indexer's `f"{doc_id}_chunk_{k}"` (`document_indexer.py` line 137)
prefixed with `doc_` by the store (`vector_store.py` line 75). -/
def chunkKey (doc_id k : Nat) : String :=
  "doc_" ++ toString doc_id ++ "_chunk_" ++ toString k

/-- Work counters: document fetches, embedding calls, store-add calls. -/
structure Effects where
  fetches : Nat
  embeds : Nat
  adds : Nat
  deriving Repr, DecidableEq

/-- The per-chunk loop of `index_document` (`document_indexer.py`
lines 120-150): embed each chunk — on failure record overall failure and
`continue` — then add it under its chunk key, recording failure but
continuing.  The store state is the list of ids added so far. -/
def indexChunks (env : IndexEnv) (doc_id : Nat) :
    Nat → List (List Char) → List String → Bool × List String × Effects
  | _, [], store => (true, store, ⟨0, 0, 0⟩)
  | k, c :: rest, store =>
      match env.embed c with
      | none =>
          let r := indexChunks env doc_id (k+1) rest store
          (false, r.2.1, ⟨0, r.2.2.embeds + 1, r.2.2.adds⟩)
      | some _ =>
          if env.addOk (chunkKey doc_id k) then
            let r := indexChunks env doc_id (k+1) rest
              (chunkKey doc_id k :: store)
            (r.1, r.2.1, ⟨0, r.2.2.embeds + 1, r.2.2.adds + 1⟩)
          else
            let r := indexChunks env doc_id (k+1) rest store
            (false, r.2.1, ⟨0, r.2.2.embeds + 1, r.2.2.adds + 1⟩)

/-- The chunk list for a document's content under the indexer's fixed
policy `chunk_size=1500, overlap=200` (`document_indexer.py` line 115);
the loop terminates for these parameters (`chunk_text_terminates`), so
the `getD` default is never taken. -/
def chunkTextRun (text : List Char) : List (List Char) :=
  (chunk_text text 1500 200).getD [text]

/-- `DocumentIndexer.index_document` (`document_indexer.py` lines
74-158): return success immediately when the first chunk's key is already
present and no reindex is forced; otherwise fetch the document, fail on
missing content, chunk, and embed/store every chunk. -/
def index_document (env : IndexEnv) (store : List String) (doc_id : Nat)
    (force_reindex : Bool) : Bool × List String × Effects :=
  if ¬ force_reindex ∧ chunkKey doc_id 0 ∈ store then
    (true, store, ⟨0, 0, 0⟩)
  else
    match env.getDoc doc_id with
    | none => (false, store, ⟨1, 0, 0⟩)
    | some document =>
        if document.content = [] then (false, store, ⟨1, 0, 0⟩)
        else
          let r := indexChunks env doc_id 0
            (chunkTextRun document.content) store
          (r.1, r.2.1, ⟨1, r.2.2.embeds, r.2.2.adds⟩)

/-- Batch statistics of `index_all_documents`. -/
structure Stats where
  indexed : Nat
  skipped : Nat
  failed : Nat
  deriving Repr, DecidableEq

/-- `DocumentIndexer.index_all_documents` (`document_indexer.py` lines
160-214): for each enumerated document id, count it as skipped when the
*un-chunked* primary key `doc_{id}` is present (`document_exists(doc_id)`
with the integer id), else run `index_document(id, force_reindex=False)`
and count success or failure. -/
def index_all_documents (env : IndexEnv) :
    List Nat → List String → Stats × List String
  | [], store => (⟨0, 0, 0⟩, store)
  | id :: rest, store =>
      if plainKey id ∈ store then
        let r := index_all_documents env rest store
        (⟨r.1.indexed, r.1.skipped + 1, r.1.failed⟩, r.2)
      else
        let d := index_document env store id false
        let r := index_all_documents env rest d.2.1
        if d.1 then (⟨r.1.indexed + 1, r.1.skipped, r.1.failed⟩, r.2)
        else (⟨r.1.indexed, r.1.skipped, r.1.failed + 1⟩, r.2)

/-! ### Claim C7: skip-and-idempotence of `index_document` -/

theorem indexChunks_store_mono (env : IndexEnv) (doc_id : Nat) :
    ∀ (cs : List (List Char)) (k : Nat) (store : List String) (x : String),
      x ∈ store → x ∈ (indexChunks env doc_id k cs store).2.1 := by
  intro cs
  induction cs with
  | nil => intro k store x hx; simpa [indexChunks] using hx
  | cons c rest ih =>
      intro k store x hx
      simp only [indexChunks]
      cases env.embed c with
      | none => exact ih (k+1) store x hx
      | some e =>
          by_cases ha : env.addOk (chunkKey doc_id k)
          · simp only [if_pos ha]
            exact ih (k+1) _ x (List.mem_cons_of_mem _ hx)
          · simp only [if_neg ha]
            exact ih (k+1) store x hx

theorem indexChunks_success_head (env : IndexEnv) (doc_id : Nat)
    (k : Nat) (c : List Char) (rest : List (List Char))
    (store : List String)
    (h : (indexChunks env doc_id k (c :: rest) store).1 = true) :
    chunkKey doc_id k ∈ (indexChunks env doc_id k (c :: rest) store).2.1 := by
  simp only [indexChunks] at h ⊢
  cases he : env.embed c with
  | none => simp [he] at h
  | some e =>
      by_cases ha : env.addOk (chunkKey doc_id k)
      · simp only [he, if_pos ha]
        exact indexChunks_store_mono env doc_id rest (k+1) _ _
          (List.mem_cons_self _ _)
      · simp [he, if_neg ha] at h

theorem chunkLoop_ne_nil (text : List Char) (cs ov fuel : Nat)
    (r : List (List Char)) (h0 : 0 < text.length)
    (h : chunkLoop text cs ov fuel 0 = some r) : r ≠ [] := by
  have hlt : (0 : Int) < (text.length : Int) := by exact_mod_cast h0
  cases fuel with
  | zero => simp [chunkLoop, hlt] at h
  | succ n =>
      simp only [chunkLoop, if_pos hlt] at h
      obtain ⟨rest, -, hr⟩ := Option.map_eq_some'.mp h
      subst hr
      simp

theorem chunkTextRun_ne_nil (text : List Char) (h : text ≠ []) :
    chunkTextRun text ≠ [] := by
  unfold chunkTextRun chunk_text
  by_cases hs : text = [] ∨ text.length ≤ 1500
  · simp [hs]
  · rw [if_neg hs]
    cases hc : chunkLoop text 1500 200 (text.length + 1) 0 with
    | none => simp [h]
    | some r =>
        have h0 : 0 < text.length := List.length_pos.mpr h
        simpa using chunkLoop_ne_nil text 1500 200 _ r h0 hc

/-- **C7.** If a document's first chunk key is already in the store,
`index_document(id, force_reindex=False)` returns success with the store
unchanged and *zero* fetches, embedding calls and store writes
(`document_indexer.py` lines 85-90); consequently, whenever a first call
returns success, the immediately following call is such a no-op success —
embedding/storage work happens at most once across the two calls. -/
theorem index_document_skip_idem :
    (∀ (env : IndexEnv) (store : List String) (id : Nat),
      chunkKey id 0 ∈ store →
      index_document env store id false = (true, store, ⟨0, 0, 0⟩)) ∧
    (∀ (env : IndexEnv) (store : List String) (id : Nat),
      (index_document env store id false).1 = true →
      index_document env (index_document env store id false).2.1 id false =
        (true, (index_document env store id false).2.1, ⟨0, 0, 0⟩)) := by
  have skip : ∀ (env : IndexEnv) (store : List String) (id : Nat),
      chunkKey id 0 ∈ store →
      index_document env store id false = (true, store, ⟨0, 0, 0⟩) := by
    intro env store id h
    simp [index_document, h]
  refine ⟨skip, ?_⟩
  intro env store id h
  by_cases hsk : chunkKey id 0 ∈ store
  · rw [skip env store id hsk]
    exact skip env store id hsk
  · refine skip env _ id ?_
    have hcond : ¬ (¬ (false = true) ∧ chunkKey id 0 ∈ store) := by
      simp [hsk]
    simp only [index_document, if_neg hcond] at h ⊢
    cases hd : env.getDoc id with
    | none => simp [hd] at h
    | some document =>
        simp only [hd] at h ⊢
        by_cases hc : document.content = []
        · simp [hc] at h
        · simp only [if_neg hc] at h ⊢
          obtain ⟨c, rest, hcr⟩ :=
            List.exists_cons_of_ne_nil (chunkTextRun_ne_nil _ hc)
          rw [hcr] at h ⊢
          exact indexChunks_success_head env id 0 c rest store h

/-- Witness for C7: with the first chunk key present, the call is a
no-op success with zero work counters. -/
theorem index_document_skip_idem_witness :
    index_document ⟨fun _ => none, fun _ => none, fun _ => true⟩
      [chunkKey 5 0] 5 false = (true, [chunkKey 5 0], ⟨0, 0, 0⟩) :=
  index_document_skip_idem.1 _ [chunkKey 5 0] 5 (by simp)

/-! ### Claim C10: the batch loop's skip key vs the chunk keys -/

theorem index_all_chunked_is_indexed :
    (∀ id : Nat, plainKey id ≠ chunkKey id 0) ∧
    (∀ (env : IndexEnv) (ids : List Nat) (store : List String),
      (∀ id ∈ ids, plainKey id ∉ store ∧ chunkKey id 0 ∈ store) →
      index_all_documents env ids store = (⟨ids.length, 0, 0⟩, store)) := by
  constructor
  · intro id h
    have hlen := congrArg String.length h
    simp only [plainKey, chunkKey, String.length_append] at hlen
    have h1 : ("doc_" : String).length = 4 := rfl
    have h2 : ("_chunk_" : String).length = 7 := rfl
    have h3 : (toString (0 : Nat) : String).length = 1 := rfl
    omega
  · intro env ids
    induction ids with
    | nil => intro store h; simp [index_all_documents]
    | cons id rest ih =>
        intro store h
        obtain ⟨⟨hp, hk⟩, hrest⟩ := List.forall_mem_cons.mp h
        have hidx := index_document_skip_idem.1 env store id hk
        simp only [index_all_documents, if_neg hp, hidx, ih store hrest]
        simp [List.length_cons]

/-- Witness for C10: a store holding only the chunked key
`"doc_5_chunk_0"` (document 5 previously indexed in chunked form) makes
the batch loop over `[5]` report one `indexed`, zero `skipped`, zero
`failed`, leaving the store unchanged. -/
theorem index_all_chunked_is_indexed_witness :
    index_all_documents ⟨fun _ => none, fun _ => none, fun _ => true⟩
      [5] [chunkKey 5 0] = (⟨1, 0, 0⟩, [chunkKey 5 0]) := by
  have h := index_all_chunked_is_indexed.2
    ⟨fun _ => none, fun _ => none, fun _ => true⟩ [5] [chunkKey 5 0]
    (by
      intro id hid
      simp only [List.mem_singleton] at hid
      subst hid
      refine ⟨?_, by simp⟩
      simp only [List.mem_singleton]
      exact index_all_chunked_is_indexed.1 5)
  simpa using h

/-! ### Claim C1: year and tag filters
(`metadata_extractor.convert_to_chromadb_filter`, `qa_system.py`
`search_documents` / `search_documents_multi`, and the web layer's
post-filters in `web_app.py` lines 472-499). -/

/-- Filters extracted from a query by `MetadataExtractor.extract_filters`
(regex and LLM extraction merged); each key may be absent. -/
structure ExtractedFilters where
  document_type : Option String
  correspondent : Option String
  tags : Option String
  year : Option String
  created_year : Option String
  created_month : Option String
  deriving Repr, DecidableEq

/-- A ChromaDB where-clause: the storage layer only supports these
exact-match predicates. -/
structure ChromaWhere where
  document_type : Option String
  correspondent : Option String
  deriving Repr, DecidableEq

/-- `MetadataExtractor.convert_to_chromadb_filter`
(`metadata_extractor.py` lines 160-196): document type and correspondent
are copied into the where-clause; the `tags` and `year`/`created_year`
branches are explicit `pass` statements (the comments say the filtering
would have to happen client-side), so those filters are *dropped*; `None`
is returned when the input dict is empty or nothing was copied. -/
def convert_to_chromadb_filter (f : ExtractedFilters) : Option ChromaWhere :=
  if f = ⟨none, none, none, none, none, none⟩ then none
  else
    if f.document_type = none ∧ f.correspondent = none then none
    else some ⟨f.document_type, f.correspondent⟩

/-- The auto-filter path of `QASystem.search_documents` (`qa_system.py`
lines 196-219): with no caller-supplied filters, the filters extracted
from the query are converted and the store is queried with the result;
*no* year or tag post-filtering happens in this path.  The vector store
is abstracted as its response function. -/
def search_documents_auto (extracted : ExtractedFilters)
    (store : Option ChromaWhere → List SearchResult) : List SearchResult :=
  store (convert_to_chromadb_filter extracted)

/-- Multi-query retrieval on the auto-filter path (`qa_system.py` lines
228-284): every query variant resolves its own filters and searches; the
concatenated results are deduplicated, sorted and truncated. -/
def search_documents_multi_auto (variants : List ExtractedFilters)
    (store : Option ChromaWhere → List SearchResult)
    (n_results : Nat) : List SearchResult :=
  search_documents_multi_merge
    (List.flatten (variants.map (fun e => search_documents_auto e store)))
    n_results

/-- The web layer's year post-filter predicate:
`r['metadata'].get('created', '').startswith(year)`
(`web_app.py` line 492). -/
def yearOk (year : String) (r : SearchResult) : Bool :=
  year.data.isPrefixOf r.metadata.created.data

/-- The web layer's tag post-filter predicate:
`any(tag in r['metadata'].get('tags', '') for tag in filter_tags)`
(`web_app.py` lines 494-499), a substring match against the chunk's
comma-joined tag list string. -/
def tagOk (filter_tags : List String) (r : SearchResult) : Bool :=
  filter_tags.any (fun t => pyContains r.metadata.tags.data t.data)

/-- Caller-supplied filters at the web layer (`/api/qa/search`,
`/api/qa/ask`): document type and correspondent are forwarded to the
store; year and tags are applied client-side after retrieval. -/
structure WebFilters where
  document_type : Option String
  correspondent : Option String
  year : Option String
  tags : Option (List String)
  deriving Repr, DecidableEq

/-- The post-filtering the web layer applies to the ranked retrieval
output (`web_app.py` lines 489-499): keep results whose `created`
metadata starts with the year (when a year filter is supplied), then
those containing one of the filter tags (when a non-empty tag list is
supplied; an empty list is falsy and skips the filter).  Both are list
comprehensions over the ranked list. -/
def web_post_filter (f : WebFilters) (results : List SearchResult) :
    List SearchResult :=
  let r1 := match f.year with
    | some y => results.filter (fun r => yearOk y r)
    | none => results
  match f.tags with
  | some ts => if ts = [] then r1 else r1.filter (fun r => tagOk ts r)
  | none => r1

/-- A stored chunk created in 2023. -/
def r2023 : SearchResult :=
  ⟨1, "doc_1_chunk_0", "x", ⟨"T", "", "", "2023-05-01", ""⟩, some (1/2)⟩

/-- A stored chunk created in 2024. -/
def r2024 : SearchResult :=
  ⟨2, "doc_2_chunk_0", "y", ⟨"T", "", "", "2024-03-02", ""⟩, some (1/4)⟩

/-- Extracted filters carrying only a year. -/
def autoYearFilters : ExtractedFilters :=
  ⟨none, none, none, some "2024", none, none⟩

/-- **C1 counterexample.** A retrieval call on the auto-extraction path
whose resolved filters contain the year `2024` returns a result created
in 2023: `convert_to_chromadb_filter` drops the year filter entirely
(its branch is `pass`), `search_documents_multi` applies no post-filter,
so the returned result violates the year filter. -/
theorem auto_year_filter_dropped :
    autoYearFilters.year = some "2024" ∧
    convert_to_chromadb_filter autoYearFilters = none ∧
    search_documents_multi_auto [autoYearFilters] (fun _ => [r2023]) 10 =
      [r2023] ∧
    yearOk "2024" r2023 = false := by
  refine ⟨rfl, by decide, rfl, by decide⟩

/-- **C1 (amended).** The year and tag post-filters are applied — as an
order-preserving intersection on the already-ranked list — only at the
web layer and only to caller-supplied filters: there, every returned
result satisfies the year filter (created-metadata prefix) and the
tag-containment filter (substring match on the tag list string).  On the
auto-extraction path, year and tag filters resolved from the query are
dropped by the ChromaDB conversion and never applied
(see `auto_year_filter_dropped`). -/
theorem web_post_filter_spec (f : WebFilters)
    (results : List SearchResult) :
    (web_post_filter f results).Sublist results ∧
    ∀ r ∈ web_post_filter f results,
      (∀ y, f.year = some y → yearOk y r = true) ∧
      (∀ ts, f.tags = some ts → ts ≠ [] → tagOk ts r = true) := by
  unfold web_post_filter
  cases hy : f.year with
  | none =>
      cases ht : f.tags with
      | none =>
          refine ⟨List.Sublist.refl _, ?_⟩
          intro r _
          exact ⟨by simp, by simp⟩
      | some ts =>
          by_cases hts : ts = []
          · subst hts
            refine ⟨by simp, ?_⟩
            intro r _
            refine ⟨by simp, ?_⟩
            intro ts' hts' hne
            exact absurd (Option.some.inj hts').symm hne
          · simp only [if_neg hts]
            refine ⟨List.filter_sublist _, ?_⟩
            intro r hr
            obtain ⟨-, hp⟩ := List.mem_filter.mp hr
            refine ⟨by simp, ?_⟩
            intro ts' hts' hne'
            rwa [← Option.some.inj hts']
  | some y =>
      cases ht : f.tags with
      | none =>
          refine ⟨List.filter_sublist _, ?_⟩
          intro r hr
          obtain ⟨-, hp⟩ := List.mem_filter.mp hr
          refine ⟨?_, by simp⟩
          intro y' hy'
          rwa [← Option.some.inj hy']
      | some ts =>
          by_cases hts : ts = []
          · subst hts
            simp only [if_pos rfl]
            refine ⟨List.filter_sublist _, ?_⟩
            intro r hr
            obtain ⟨-, hp⟩ := List.mem_filter.mp hr
            refine ⟨?_, ?_⟩
            · intro y' hy'
              rwa [← Option.some.inj hy']
            · intro ts' hts' hne
              exact absurd (Option.some.inj hts').symm hne
          · simp only [if_neg hts]
            refine ⟨(List.filter_sublist _).trans (List.filter_sublist _), ?_⟩
            intro r hr
            obtain ⟨hr1, hp2⟩ := List.mem_filter.mp hr
            obtain ⟨-, hp1⟩ := List.mem_filter.mp hr1
            refine ⟨?_, ?_⟩
            · intro y' hy'
              rwa [← Option.some.inj hy']
            · intro ts' hts' hne'
              rwa [← Option.some.inj hts']

/-- Witness for C1 (amended): with the caller-supplied year filter 2024
over the ranked list `[r2024, r2023]`, the surviving result satisfies the
year predicate. -/
theorem web_post_filter_spec_witness :
    yearOk "2024" r2024 = true := by
  have hmem : r2024 ∈ web_post_filter ⟨none, none, some "2024", none⟩
      [r2024, r2023] := by
    rw [show web_post_filter ⟨none, none, some "2024", none⟩
      [r2024, r2023] = [r2024] from rfl]
    exact List.mem_cons_self _ _
  exact ((web_post_filter_spec ⟨none, none, some "2024", none⟩
    [r2024, r2023]).2 r2024 hmem).1 "2024" rfl
